import Mathlib

/-!
# Verification of the Transcript voice-recorder core

Shallow embedding of the audio-capture-to-profile pipeline of the
Transcript repository (`app4.py`, `app9.py`, `integrated.py`,
`speech_classification.py`) and proofs settling the frozen claims about it.

Conventions used throughout:
* JavaScript/Python floating-point numbers are modelled as rationals (`ℚ`);
  machine integers are `Nat`/`Int` with explicit `% 2^w` where the source
  wraps (`DataView.setUint32`, `setUint16`, `setInt16`, `Int16Array` stores).
* Byte buffers are `List ℕ` of byte values, little-endian where the source
  writes multi-byte fields.
* `numpy.std` returns a square root, which is irrational in general; pitch
  statistics therefore carry the *variance* (std squared).  Equality and
  zero/default tests on the std are stated on the variance (std = 30
  becomes var = 900, std = 0 becomes var = 0), which is equivalent because
  squaring is injective on nonnegative reals.
-/

/-! ## WAV container encoder (`createWavFile` in app9.py / integrated.py) -/

/-- `DataView.setUint32(_, x, true)`: the value is reduced mod 2^32 and laid
out as four little-endian bytes. -/
def setUint32LE (x : ℕ) : List ℕ :=
  let m := x % 4294967296
  [m % 256, m / 256 % 256, m / 65536 % 256, m / 16777216]

/-- `DataView.setUint16(_, x, true)`: the value is reduced mod 2^16 and laid
out as two little-endian bytes. -/
def setUint16LE (x : ℕ) : List ℕ :=
  let m := x % 65536
  [m % 256, m / 256]

/-- `DataView.setInt16(_, x, true)`: the (possibly negative) value is reduced
mod 2^16 into [0, 65535] and laid out as two little-endian bytes. -/
def setInt16LE (x : ℤ) : List ℕ :=
  let m := (x % 65536).toNat
  [m % 256, m / 256]

/-- The byte stream of the sample loop of `createWavFile`: each 16-bit sample
written in order with `setInt16(offset, pcmData[i], true)`. -/
def samplesBytes : List ℤ → List ℕ
  | [] => []
  | x :: xs => setInt16LE x ++ samplesBytes xs

/-- The 44 header bytes of `createWavFile(pcmData, sampleRate, channels)` for
`n = pcmData.length`: RIFF/WAVE/fmt /data chunks exactly as written by the
source (`writeString` emits the ASCII codes of `'RIFF'`, `'WAVE'`, `'fmt '`,
`'data'`). -/
def wavHeader (n sampleRate channels : ℕ) : List ℕ :=
  [82, 73, 70, 70] ++ setUint32LE (36 + n * 2) ++
  [87, 65, 86, 69] ++
  [102, 109, 116, 32] ++ setUint32LE 16 ++ setUint16LE 1 ++
  setUint16LE channels ++ setUint32LE sampleRate ++
  setUint32LE (sampleRate * channels * 2) ++ setUint16LE (channels * 2) ++
  setUint16LE 16 ++
  [100, 97, 116, 97] ++ setUint32LE (n * 2)

/-- `createWavFile(pcmData, sampleRate, channels)` from app9.py /
integrated.py: the 44-byte header followed by the raw little-endian 16-bit
samples. -/
def createWavFile (pcmData : List ℤ) (sampleRate channels : ℕ) : List ℕ :=
  wavHeader pcmData.length sampleRate channels ++ samplesBytes pcmData

/-! ## A WAV decoder (from the spec's round-trip contract, §4.2/§8) -/

/-- Read a little-endian 16-bit unsigned field at offset `i`. -/
def readLE16 (b : List ℕ) (i : ℕ) : ℕ :=
  b.getD i 0 + 256 * b.getD (i + 1) 0

/-- Read a little-endian 32-bit unsigned field at offset `i`. -/
def readLE32 (b : List ℕ) (i : ℕ) : ℕ :=
  b.getD i 0 + 256 * b.getD (i + 1) 0 + 65536 * b.getD (i + 2) 0 +
    16777216 * b.getD (i + 3) 0

/-- Interpret a 16-bit unsigned value as a two's-complement signed integer. -/
def toSigned16 (m : ℕ) : ℤ :=
  if 32768 ≤ m then (m : ℤ) - 65536 else (m : ℤ)

/-- Decode the data section: consecutive little-endian signed 16-bit samples
until the bytes run out. -/
def decodeSamples : List ℕ → List ℤ
  | lo :: hi :: rest => toSigned16 (lo + 256 * hi) :: decodeSamples rest
  | _ => []

/-- Modelled from the spec: "a decoder reading this buffer must recover
identical channel count, sample rate, bit depth, and sample sequence as
supplied" (§4.2).  Reads NumChannels at offset 22, SampleRate at offset 24,
BitsPerSample at offset 34, and the sample data from offset 44 to the end of
the buffer. -/
def decodeWav (b : List ℕ) : ℕ × ℕ × ℕ × List ℤ :=
  (readLE16 b 22, readLE32 b 24, readLE16 b 34, decodeSamples (b.drop 44))

/-! ## C2: concrete header example -/

/-- C2: encoding the 2-sample mono buffer [0, -32768] at 8000 Hz yields
ChunkSize = 40 (bytes 4..7), ByteRate = 16000 (bytes 28..31),
BlockAlign = 2 (bytes 32..33), Subchunk2Size = 4 (bytes 40..43),
Subchunk1Size = 16, AudioFormat = 1, BitsPerSample = 16, with the full
44-byte header (and the 4 data bytes) exactly as in the §4.2 table. -/
theorem wav_header_example :
    readLE32 (createWavFile [0, -32768] 8000 1) 4 = 40 ∧
    readLE32 (createWavFile [0, -32768] 8000 1) 28 = 16000 ∧
    readLE16 (createWavFile [0, -32768] 8000 1) 32 = 2 ∧
    readLE32 (createWavFile [0, -32768] 8000 1) 40 = 4 ∧
    readLE32 (createWavFile [0, -32768] 8000 1) 16 = 16 ∧
    readLE16 (createWavFile [0, -32768] 8000 1) 20 = 1 ∧
    readLE16 (createWavFile [0, -32768] 8000 1) 34 = 16 ∧
    createWavFile [0, -32768] 8000 1 =
      [82, 73, 70, 70, 40, 0, 0, 0, 87, 65, 86, 69,
       102, 109, 116, 32, 16, 0, 0, 0, 1, 0, 1, 0,
       64, 31, 0, 0, 128, 62, 0, 0, 2, 0, 16, 0,
       100, 97, 116, 97, 4, 0, 0, 0,
       0, 0, 0, 128] := by
  refine ⟨?_, ?_, ?_, ?_, ?_, ?_, ?_, ?_⟩ <;> rfl

/-! ## C7: the empty session -/

/-- C7: for every sample rate and channel count, encoding the empty sample
array succeeds and gives a 44-byte artifact with an empty data chunk,
ChunkSize = 36 and Subchunk2Size = 0. -/
theorem empty_session_wav (sampleRate channels : ℕ) :
    (createWavFile [] sampleRate channels).length = 44 ∧
    readLE32 (createWavFile [] sampleRate channels) 4 = 36 ∧
    readLE32 (createWavFile [] sampleRate channels) 40 = 0 ∧
    (createWavFile [] sampleRate channels).drop 44 = [] := by
  refine ⟨?_, ?_, ?_, ?_⟩ <;> rfl

/-! ## C1: WAV round-trip -/

/-- `createWavFile` flattened to its 44 header bytes followed by the sample
data, with every multi-byte field spelled out little-endian. -/
theorem createWavFile_eq (pcm : List ℤ) (sr ch : ℕ) :
    createWavFile pcm sr ch =
      [82, 73, 70, 70,
       (36 + pcm.length * 2) % 4294967296 % 256,
       (36 + pcm.length * 2) % 4294967296 / 256 % 256,
       (36 + pcm.length * 2) % 4294967296 / 65536 % 256,
       (36 + pcm.length * 2) % 4294967296 / 16777216,
       87, 65, 86, 69,
       102, 109, 116, 32,
       16, 0, 0, 0,
       1, 0,
       ch % 65536 % 256, ch % 65536 / 256,
       sr % 4294967296 % 256, sr % 4294967296 / 256 % 256,
       sr % 4294967296 / 65536 % 256, sr % 4294967296 / 16777216,
       sr * ch * 2 % 4294967296 % 256, sr * ch * 2 % 4294967296 / 256 % 256,
       sr * ch * 2 % 4294967296 / 65536 % 256, sr * ch * 2 % 4294967296 / 16777216,
       ch * 2 % 65536 % 256, ch * 2 % 65536 / 256,
       16, 0,
       100, 97, 116, 97,
       pcm.length * 2 % 4294967296 % 256, pcm.length * 2 % 4294967296 / 256 % 256,
       pcm.length * 2 % 4294967296 / 65536 % 256, pcm.length * 2 % 4294967296 / 16777216]
      ++ samplesBytes pcm := by
  simp [createWavFile, wavHeader, setUint32LE, setUint16LE]

/-- A single 16-bit sample survives the encode/decode byte round trip. -/
theorem toSigned16_setInt16 (x : ℤ) (h1 : -32768 ≤ x) (h2 : x ≤ 32767) :
    toSigned16 ((x % 65536).toNat % 256 + 256 * ((x % 65536).toNat / 256)) = x := by
  unfold toSigned16
  split <;> omega

/-- Decoding the data section written by the sample loop recovers the sample
sequence, provided every sample is a 16-bit value. -/
theorem decodeSamples_samplesBytes (l : List ℤ)
    (h : ∀ x ∈ l, -32768 ≤ x ∧ x ≤ 32767) :
    decodeSamples (samplesBytes l) = l := by
  induction l with
  | nil => rfl
  | cons x xs ih =>
    obtain ⟨h1, h2⟩ := h x (List.mem_cons_self x xs)
    have hstep : samplesBytes (x :: xs) =
        (x % 65536).toNat % 256 :: (x % 65536).toNat / 256 :: samplesBytes xs := by
      simp [samplesBytes, setInt16LE]
    rw [hstep, decodeSamples, ih (fun y hy => h y (List.mem_cons_of_mem x hy)),
      toSigned16_setInt16 x h1 h2]

/-- C1 (amended): for every 16-bit sample array, every sample rate below 2^32
and every channel count below 2^16, decoding the encoder's buffer recovers
the channel count, the sample rate, bit depth 16 and the exact sample
sequence.  (The bounds are forced by the 32/16-bit header fields; see
`wav_roundtrip_counterexample`.) -/
theorem wav_roundtrip (pcm : List ℤ) (sr ch : ℕ)
    (hpcm : ∀ x ∈ pcm, -32768 ≤ x ∧ x ≤ 32767)
    (hsr : sr < 4294967296) (hch : ch < 65536) :
    decodeWav (createWavFile pcm sr ch) = (ch, sr, 16, pcm) := by
  have hch' : readLE16 (createWavFile pcm sr ch) 22 = ch := by
    have e : readLE16 (createWavFile pcm sr ch) 22 =
        ch % 65536 % 256 + 256 * (ch % 65536 / 256) := by
      rw [createWavFile_eq]; rfl
    rw [e]; omega
  have hsr' : readLE32 (createWavFile pcm sr ch) 24 = sr := by
    have e : readLE32 (createWavFile pcm sr ch) 24 =
        sr % 4294967296 % 256 + 256 * (sr % 4294967296 / 256 % 256) +
          65536 * (sr % 4294967296 / 65536 % 256) +
          16777216 * (sr % 4294967296 / 16777216) := by
      rw [createWavFile_eq]; rfl
    rw [e]; omega
  have hbits : readLE16 (createWavFile pcm sr ch) 34 = 16 := by
    rw [createWavFile_eq]; rfl
  have hdata : (createWavFile pcm sr ch).drop 44 = samplesBytes pcm := by
    rw [createWavFile_eq]; rfl
  unfold decodeWav
  rw [hch', hsr', hbits, hdata, decodeSamples_samplesBytes pcm hpcm]

/-- Witness for `wav_roundtrip` at a concrete 3-sample buffer. -/
theorem wav_roundtrip_witness :
    decodeWav (createWavFile [0, -32768, 32767] 44100 1) =
      (1, 44100, 16, [0, -32768, 32767]) :=
  wav_roundtrip [0, -32768, 32767] 44100 1 (by decide) (by decide) (by decide)

/-- C1 counterexample to the unbounded claim: at sample rate 2^32 and channel
count 2^16 the 32-bit SampleRate and 16-bit NumChannels header fields wrap to
0, so decoding does not recover the supplied values. -/
theorem wav_roundtrip_counterexample :
    decodeWav (createWavFile [] 4294967296 65536) = (0, 0, 16, []) ∧
    decodeWav (createWavFile [] 4294967296 65536) ≠
      (65536, 4294967296, 16, ([] : List ℤ)) := by
  have h : decodeWav (createWavFile [] 4294967296 65536) =
      (0, 0, 16, ([] : List ℤ)) := rfl
  refine ⟨h, ?_⟩
  rw [h]
  simp

/-! ## PCM accumulator (`scriptProcessor.onaudioprocess` in app9.py /
integrated.py) -/

/-- Truncation toward zero, as JavaScript's ToIntegerOrInfinity does when a
float is stored into an `Int16Array`. -/
def ratTrunc (x : ℚ) : ℤ :=
  if 0 ≤ x then ⌊x⌋ else ⌈x⌉

/-- The `Int16Array` store conversion (ECMAScript ToInt16): truncate toward
zero, reduce mod 2^16 into [0, 65535], then reinterpret two's-complement. -/
def toInt16JS (v : ℚ) : ℤ :=
  let i := ratTrunc v
  let m := i % 65536
  if 32768 ≤ m then m - 65536 else m

/-- `Math.max(-1, Math.min(1, inputData[i]))` from the capture callback. -/
def clampS (x : ℚ) : ℚ := max (-1) (min 1 x)

/-- One step of the capture loop:
`const s = Math.max(-1, Math.min(1, inputData[i]));`
`pcm16[i] = s < 0 ? s * 0x8000 : s * 0x7FFF;` stored into an `Int16Array`. -/
def convertSample (x : ℚ) : ℤ :=
  let s := clampS x
  toInt16JS (if s < 0 then s * 32768 else s * 32767)

/-- The mod-2^16 wrap of `toInt16JS` is the identity on 16-bit values. -/
theorem toInt16JS_eq_ratTrunc (v : ℚ)
    (h1 : -32768 ≤ ratTrunc v) (h2 : ratTrunc v ≤ 32767) :
    toInt16JS v = ratTrunc v := by
  simp only [toInt16JS]
  split <;> omega

/-- `ratTrunc` stays between any integer bounds of its argument. -/
theorem ratTrunc_bounds (v : ℚ) (lo hi : ℤ)
    (h1 : (lo : ℚ) ≤ v) (h2 : v ≤ (hi : ℚ)) :
    lo ≤ ratTrunc v ∧ ratTrunc v ≤ hi := by
  unfold ratTrunc
  constructor
  · split
    · exact Int.le_floor.mpr h1
    · exact le_trans (Int.le_floor.mpr h1) (Int.floor_le_ceil v)
  · split
    · calc ⌊v⌋ ≤ ⌊(hi : ℚ)⌋ := Int.floor_le_floor h2
        _ = hi := Int.floor_intCast hi
    · calc ⌈v⌉ ≤ ⌈(hi : ℚ)⌉ := Int.ceil_le_ceil h2
        _ = hi := Int.ceil_intCast hi

/-- C3: every incoming sample is clamped to [-1, 1], scaled by 32768 when
negative and by 32767 otherwise, truncated to an integer with no 16-bit
wrap-around, and the result always lies in [-32768, 32767]. -/
theorem pcm_convert_range (x : ℚ) :
    convertSample x =
      (if clampS x < 0 then ratTrunc (clampS x * 32768)
       else ratTrunc (clampS x * 32767)) ∧
    -32768 ≤ convertSample x ∧ convertSample x ≤ 32767 := by
  have hlo : (-1 : ℚ) ≤ clampS x := le_max_left _ _
  have hhi : clampS x ≤ 1 := max_le (by norm_num) (min_le_left _ _)
  by_cases hneg : clampS x < 0
  · have hv1 : ((-32768 : ℤ) : ℚ) ≤ clampS x * 32768 := by
      push_cast
      nlinarith
    have hv2 : clampS x * 32768 ≤ ((0 : ℤ) : ℚ) := by
      push_cast
      nlinarith [le_of_lt hneg]
    obtain ⟨hb1, hb2⟩ := ratTrunc_bounds (clampS x * 32768) (-32768) 0 hv1 hv2
    have he : convertSample x = ratTrunc (clampS x * 32768) := by
      show toInt16JS (if clampS x < 0 then clampS x * 32768 else clampS x * 32767) = _
      rw [if_pos hneg]
      exact toInt16JS_eq_ratTrunc _ hb1 (by omega)
    rw [he, if_pos hneg]
    exact ⟨rfl, hb1, by omega⟩
  · have hge : (0 : ℚ) ≤ clampS x := le_of_not_lt hneg
    have hv1 : ((0 : ℤ) : ℚ) ≤ clampS x * 32767 := by
      push_cast
      nlinarith
    have hv2 : clampS x * 32767 ≤ ((32767 : ℤ) : ℚ) := by
      push_cast
      nlinarith
    obtain ⟨hb1, hb2⟩ := ratTrunc_bounds (clampS x * 32767) 0 32767 hv1 hv2
    have he : convertSample x = ratTrunc (clampS x * 32767) := by
      show toInt16JS (if clampS x < 0 then clampS x * 32768 else clampS x * 32767) = _
      rw [if_neg hneg]
      exact toInt16JS_eq_ratTrunc _ (by omega) hb2
    rw [he, if_neg hneg]
    exact ⟨rfl, by omega, hb2⟩

/-! ## Feature vectors and the gender/age classifier
(`estimate_gender_age` in speech_classification.py / integrated.py) -/

/-- The fields of the feature dictionary that the classifier and the voice
scores read.  `ratio_hp` models `features['harmonic_to_percussive_ratio']`. -/
structure FeatureVector where
  pitch_mean : ℚ
  pitch_median : ℚ
  pitch_std : ℚ
  pitch_range : ℚ
  formant_f1_mean : ℚ
  formant_f2_mean : ℚ
  spectral_centroid_mean : ℚ
  spectral_flatness_mean : ℚ
  zcr_mean : ℚ
  rms_mean : ℚ
  ratio_hp : ℚ

def male : String := "male"

def female : String := "female"

def young : String := "young"

def middle : String := "middle"

def senior : String := "senior"

/-- The accumulated `gender_score`: the pitch-median band, the formant pair
cue, and the spectral-centroid cue, added in source order. -/
def genderScore (f : FeatureVector) : ℚ :=
  let s1 : ℚ :=
    if f.pitch_median < 140 then 0 - 4
    else if f.pitch_median < 155 then 0 - 2
    else if f.pitch_median < 175 then 0
    else if f.pitch_median < 200 then 0 + 2
    else 0 + 4
  let s2 : ℚ :=
    if f.formant_f1_mean < 520 ∧ f.formant_f2_mean < 1400 then s1 - 3
    else if f.formant_f1_mean > 620 ∧ f.formant_f2_mean > 1700 then s1 + 3
    else s1
  if f.spectral_centroid_mean < 1500 then s2 - 1.5
  else if f.spectral_centroid_mean > 2500 then s2 + 1.5
  else s2

/-- `estimate_gender_age(features)`: returns
(gender label, gender confidence, age label, age confidence). -/
def estimate_gender_age (f : FeatureVector) : String × ℚ × String × ℚ :=
  let score := genderScore f
  let g : String × ℚ :=
    if score < -1.5 then (male, min 95 (60 + |score| * 8))
    else if score > 1.5 then (female, min 95 (60 + |score| * 8))
    else (if f.pitch_median < 165 then male else female, 55)
  let age_score : ℕ :=
    (if f.pitch_std < 15 then 2 else 0) +
      (if f.spectral_flatness_mean > 0.35 then 2 else 0)
  let age :=
    if age_score ≤ 0 then young else if age_score ≤ 2 then middle else senior
  (g.1, g.2, age, 70)

/-! ## C5: the low-pitch male scenario -/

/-- C5: every feature vector with pitch_median = 100, F1 = 450, F2 = 1200 and
centroid = 1200 accumulates gender score -4 - 3 - 1.5 = -8.5 and is labelled
"male" with confidence min(95, 60 + 8·8.5) = 95. -/
theorem gender_male_scenario (f : FeatureVector)
    (h1 : f.pitch_median = 100) (h2 : f.formant_f1_mean = 450)
    (h3 : f.formant_f2_mean = 1200) (h4 : f.spectral_centroid_mean = 1200) :
    genderScore f = -8.5 ∧
    (estimate_gender_age f).1 = male ∧ (estimate_gender_age f).2.1 = 95 := by
  have hs : genderScore f = -8.5 := by
    simp only [genderScore, h1, h2, h3, h4]
    norm_num
  have hconf : min (95 : ℚ) (60 + |(-8.5 : ℚ)| * 8) = 95 := by
    rw [abs_of_nonpos (by norm_num : (-8.5 : ℚ) ≤ 0)]
    norm_num
  refine ⟨hs, ?_, ?_⟩ <;>
  · simp only [estimate_gender_age, hs, hconf]
    norm_num

/-- Concrete feature vector for the C5 scenario. -/
def fvC5 : FeatureVector :=
  ⟨150, 100, 20, 50, 450, 1200, 1200, 0.2, 0.05, 0.04, 1⟩

/-- Witness for `gender_male_scenario`. -/
theorem gender_male_scenario_witness :
    genderScore fvC5 = -8.5 ∧
    (estimate_gender_age fvC5).1 = male ∧
    (estimate_gender_age fvC5).2.1 = 95 :=
  gender_male_scenario fvC5 rfl rfl rfl rfl

/-! ## C6: the tie-break boundary at 165 Hz -/

/-- C6: whenever the accumulated gender score lies in [-1.5, 1.5] and the
pitch median is exactly 165, the tie-break branch runs, the strict test
`pitch_median < 165` is false, and the result is "female" with
confidence 55. -/
theorem gender_tiebreak_165 (f : FeatureVector)
    (h1 : -1.5 ≤ genderScore f) (h2 : genderScore f ≤ 1.5)
    (hp : f.pitch_median = 165) :
    (estimate_gender_age f).1 = female ∧ (estimate_gender_age f).2.1 = 55 := by
  have hn1 : ¬(genderScore f < -1.5) := not_lt.mpr h1
  have hn2 : ¬(genderScore f > 1.5) := not_lt.mpr h2
  refine ⟨?_, ?_⟩ <;>
  · simp only [estimate_gender_age, hn1, hn2, hp]
    try norm_num

/-- Concrete feature vector for the C6 scenario: neutral formants and
centroid, so the gender score is exactly 0. -/
def fvC6 : FeatureVector :=
  ⟨160, 165, 20, 50, 600, 1500, 2000, 0.2, 0.05, 0.04, 1⟩

/-- Witness for `gender_tiebreak_165`. -/
theorem gender_tiebreak_165_witness :
    (estimate_gender_age fvC6).1 = female ∧
    (estimate_gender_age fvC6).2.1 = 55 :=
  gender_tiebreak_165 fvC6 (by norm_num [genderScore, fvC6])
    (by norm_num [genderScore, fvC6]) rfl

/-! ## Voice quality scores (`calculate_voice_scores` in
speech_classification.py / integrated.py) -/

/-- `numpy.round` to the nearest integer, ties to even (banker's rounding). -/
def roundHalfEven (x : ℚ) : ℤ :=
  let f := ⌊x⌋
  let r := x - f
  if r < 1 / 2 then f
  else if 1 / 2 < r then f + 1
  else if f % 2 = 0 then f else f + 1

/-- `round(x, 1)` / `np.round(x, 1)`: round to one decimal place. -/
def round1 (x : ℚ) : ℚ := (roundHalfEven (x * 10) : ℚ) / 10

/-- `np.clip(x, lo, hi)` = `minimum(maximum(x, lo), hi)`. -/
def npClip (x lo hi : ℚ) : ℚ := min (max x lo) hi

/-- The eight named quality scores. -/
structure VoiceScores where
  bass : ℚ
  treble : ℚ
  clarity : ℚ
  smoothness : ℚ
  power : ℚ
  warmth : ℚ
  richness : ℚ
  pitch_variation : ℚ

/-- `calculate_voice_scores(features)`: each score is clipped to [0, 10] and
rounded to one decimal, except warmth, which is the rounded combination
`bass*0.6 + smoothness*0.4` of two already-final scores, with no clip. -/
def calculate_voice_scores (f : FeatureVector) : VoiceScores :=
  let bass := round1 (npClip (10 - (f.pitch_mean - 80) / 20) 0 10)
  let treble := round1 (npClip ((f.spectral_centroid_mean - 1000) / 300) 0 10)
  let clarity := round1 (npClip (f.zcr_mean * 100) 0 10)
  let smoothness := round1 (npClip (10 - f.pitch_std / 10) 0 10)
  let power := round1 (npClip (f.rms_mean * 100) 0 10)
  let warmth := round1 (bass * 0.6 + smoothness * 0.4)
  let richness := round1 (npClip (f.ratio_hp * 2) 0 10)
  let pitch_variation := round1 (npClip (f.pitch_range / 50) 0 10)
  ⟨bass, treble, clarity, smoothness, power, warmth, richness, pitch_variation⟩

/-- A score is admissible when it lies in [0, 10] and has exactly one decimal
place. -/
def okScore (x : ℚ) : Prop :=
  0 ≤ x ∧ x ≤ 10 ∧ ∃ z : ℤ, x = (z : ℚ) / 10

/-- `roundHalfEven` never moves below the floor nor above the floor plus one. -/
theorem roundHalfEven_mem (x : ℚ) :
    ⌊x⌋ ≤ roundHalfEven x ∧ roundHalfEven x ≤ ⌊x⌋ + 1 := by
  simp only [roundHalfEven]
  split
  · omega
  · split
    · omega
    · split <;> omega

/-- An integer lower bound of the argument bounds `roundHalfEven` below. -/
theorem le_roundHalfEven (x : ℚ) (n : ℤ) (h : (n : ℚ) ≤ x) :
    n ≤ roundHalfEven x := by
  have h1 : n ≤ ⌊x⌋ := Int.le_floor.mpr h
  have h2 := (roundHalfEven_mem x).1
  omega

/-- An integer upper bound of the argument bounds `roundHalfEven` above. -/
theorem roundHalfEven_le (x : ℚ) (n : ℤ) (h : x ≤ (n : ℚ)) :
    roundHalfEven x ≤ n := by
  rcases lt_or_eq_of_le (Int.floor_le_floor h) with hlt | heq
  · have h2 := (roundHalfEven_mem x).2
    rw [Int.floor_intCast] at hlt
    omega
  · rw [Int.floor_intCast] at heq
    have hx : x = (n : ℚ) := by
      have h1 : (n : ℚ) ≤ x := by
        rw [← heq]
        exact Int.floor_le x
      exact le_antisymm h h1
    simp only [roundHalfEven, hx, heq]
    norm_num

/-- `round1` of a value in [0, 10] is an admissible score. -/
theorem okScore_round1 (x : ℚ) (h0 : 0 ≤ x) (h10 : x ≤ 10) :
    okScore (round1 x) := by
  have hl : (0 : ℤ) ≤ roundHalfEven (x * 10) :=
    le_roundHalfEven _ 0 (by push_cast; nlinarith)
  have hu : roundHalfEven (x * 10) ≤ (100 : ℤ) :=
    roundHalfEven_le _ 100 (by push_cast; nlinarith)
  refine ⟨?_, ?_, roundHalfEven (x * 10), rfl⟩
  · unfold round1
    have hc : (0 : ℚ) ≤ (roundHalfEven (x * 10) : ℚ) := by exact_mod_cast hl
    linarith
  · unfold round1
    have hc : (roundHalfEven (x * 10) : ℚ) ≤ 100 := by exact_mod_cast hu
    linarith

/-- `np.clip(x, 0, 10)` always lands in [0, 10]. -/
theorem npClip_mem (x : ℚ) : 0 ≤ npClip x 0 10 ∧ npClip x 0 10 ≤ 10 :=
  ⟨le_min (le_max_right x 0) (by norm_num), min_le_right _ _⟩

/-- Every clipped-and-rounded quality score is admissible. -/
theorem okScore_round1_npClip (x : ℚ) : okScore (round1 (npClip x 0 10)) :=
  okScore_round1 _ (npClip_mem x).1 (npClip_mem x).2

/-- The warmth combination of two clipped-and-rounded scores is admissible
even though the source applies no clip to it. -/
theorem okScore_warmth (a b : ℚ) :
    okScore (round1 (round1 (npClip a 0 10) * 0.6 +
      round1 (npClip b 0 10) * 0.4)) := by
  obtain ⟨ha0, ha10, _⟩ := okScore_round1_npClip a
  obtain ⟨hb0, hb10, _⟩ := okScore_round1_npClip b
  refine okScore_round1 _ ?_ ?_ <;> nlinarith

/-- C9: for every feature vector, each of the eight scores returned by
`calculate_voice_scores` lies in [0, 10] and has one decimal place,
including the unclipped warmth. -/
theorem voice_scores_range (f : FeatureVector) :
    okScore (calculate_voice_scores f).bass ∧
    okScore (calculate_voice_scores f).treble ∧
    okScore (calculate_voice_scores f).clarity ∧
    okScore (calculate_voice_scores f).smoothness ∧
    okScore (calculate_voice_scores f).power ∧
    okScore (calculate_voice_scores f).warmth ∧
    okScore (calculate_voice_scores f).richness ∧
    okScore (calculate_voice_scores f).pitch_variation :=
  ⟨okScore_round1_npClip _, okScore_round1_npClip _, okScore_round1_npClip _,
   okScore_round1_npClip _, okScore_round1_npClip _, okScore_warmth _ _,
   okScore_round1_npClip _, okScore_round1_npClip _⟩

/-! ## Realtime quality monitor (`monitorAudioQuality` in app4.py / app9.py) -/

/-- `dataArray.reduce((a, b) => a + b) / bufferLength`. -/
def meanBins (bins : List ℕ) : ℚ := (bins.sum : ℚ) / bins.length

/-- `Math.max(...dataArray)` (0 on an empty array never occurs in use). -/
def maxBin : List ℕ → ℕ
  | [] => 0
  | x :: xs => xs.foldl max x

/-- `Math.min(...dataArray)`. -/
def minBin : List ℕ → ℕ
  | [] => 0
  | x :: xs => xs.foldl min x

/-- `dataArray.filter(v => v > 10).length`. -/
def countLoud (bins : List ℕ) : ℕ :=
  (bins.filter (fun v => decide (v > 10))).length

/-- `Math.min(40, (avgVolume / 255) * 40)`. -/
def volumeScore (bins : List ℕ) : ℚ := min 40 (meanBins bins / 255 * 40)

/-- `Math.min(30, (nonZeroFreqs / bufferLength) * 30)`. -/
def freqScore (bins : List ℕ) : ℚ :=
  min 30 ((countLoud bins : ℚ) / bins.length * 30)

/-- `Math.min(30, (dynamicRange / 255) * 30)`. -/
def rangeScore (bins : List ℕ) : ℚ :=
  min 30 (((maxBin bins : ℚ) - (minBin bins : ℚ)) / 255 * 30)

/-- `Math.max(1, Math.min(10, qualityScore / 10))`. -/
def qualityScore (bins : List ℕ) : ℚ :=
  max 1 (min 10 ((volumeScore bins + freqScore bins + rangeScore bins) / 10))

/-! ## C8: quality score bounds and monotonicity in the mean -/

/-- C8: for every non-empty bin array the quality score lies in [1, 10]; and
among bin arrays of equal length, equal count of bins above 10, equal
maximum and equal minimum, a larger (or equal) mean magnitude never lowers
the score. -/
theorem quality_monitor_bounds_mono (p : List ℕ) (hp : p ≠ []) :
    (1 ≤ qualityScore p ∧ qualityScore p ≤ 10) ∧
    ∀ q : List ℕ, q.length = p.length → countLoud q = countLoud p →
      maxBin q = maxBin p → minBin q = minBin p → meanBins q ≤ meanBins p →
      qualityScore q ≤ qualityScore p := by
  refine ⟨⟨le_max_left 1 _, max_le (by norm_num) (min_le_left _ _)⟩, ?_⟩
  intro q hlen hcnt hmax hmin hmean
  have hfreq : freqScore q = freqScore p := by
    unfold freqScore
    rw [hcnt, hlen]
  have hrange : rangeScore q = rangeScore p := by
    unfold rangeScore
    rw [hmax, hmin]
  have hvol : volumeScore q ≤ volumeScore p := by
    unfold volumeScore
    have hmono : meanBins q / 255 * 40 ≤ meanBins p / 255 * 40 := by gcongr
    exact min_le_min (le_refl 40) hmono
  unfold qualityScore
  rw [hfreq, hrange]
  have hsum : (volumeScore q + freqScore p + rangeScore p) / 10 ≤
      (volumeScore p + freqScore p + rangeScore p) / 10 := by linarith
  exact max_le_max (le_refl 1) (min_le_min (le_refl 10) hsum)

/-- Witness for `quality_monitor_bounds_mono`: [0, 50, 100] and [0, 100, 100]
share length, loud-bin count (2), maximum (100) and minimum (0), and the
second has the larger mean. -/
theorem quality_monitor_witness :
    ((1 ≤ qualityScore [0, 100, 100] ∧ qualityScore [0, 100, 100] ≤ 10) ∧
      qualityScore [0, 50, 100] ≤ qualityScore [0, 100, 100]) := by
  have h := quality_monitor_bounds_mono [0, 100, 100] (by decide)
  exact ⟨h.1, h.2 [0, 50, 100] (by decide) (by decide) (by decide) (by decide)
    (by norm_num [meanBins])⟩

/-! ## Pitch statistics of the feature extractor (`extract_audio_features`
in speech_classification.py / integrated.py)

The two pitch-tracking passes (`librosa.piptrack` and `librosa.yin`) are
external numeric capabilities (spec §9); they enter the embedding as the
lists of positive candidate observations each pass yields.  Everything after
that point — merging, quartiles, IQR filtering, statistics and fallbacks —
is repository code and is embedded below.  Variance stands in for
`np.std` (see the header comment). -/

/-- Insert into a sorted list (ascending). -/
def insertSorted (x : ℚ) : List ℚ → List ℚ
  | [] => [x]
  | y :: ys => if x ≤ y then x :: y :: ys else y :: insertSorted x ys

/-- Ascending sort, as `np.percentile` / `np.median` sort their input. -/
def sortQ : List ℚ → List ℚ
  | [] => []
  | x :: xs => insertSorted x (sortQ xs)

/-- `np.mean`. -/
def meanQ (l : List ℚ) : ℚ := l.sum / l.length

/-- `np.median`: middle element of the sorted list, or the average of the two
middle elements for even length. -/
def medianQ (l : List ℚ) : ℚ :=
  let s := sortQ l
  let n := s.length
  if n % 2 = 1 then s.getD (n / 2) 0
  else (s.getD (n / 2 - 1) 0 + s.getD (n / 2) 0) / 2

/-- `np.std` squared: the population variance. -/
def varQ (l : List ℚ) : ℚ :=
  ((l.map (fun x => (x - meanQ l) * (x - meanQ l))).sum) / l.length

/-- `np.max`. -/
def maxQ : List ℚ → ℚ
  | [] => 0
  | x :: xs => xs.foldl max x

/-- `np.min`. -/
def minQ : List ℚ → ℚ
  | [] => 0
  | x :: xs => xs.foldl min x

/-- `np.percentile(l, q)` with the default linear interpolation: at position
`q/100 * (n-1)` of the sorted list, interpolating between the two
neighbouring elements. -/
def percentileQ (l : List ℚ) (q : ℚ) : ℚ :=
  let s := sortQ l
  let n := s.length
  let pos := q / 100 * ((n : ℚ) - 1)
  let i := ⌊pos⌋.toNat
  let frac := pos - ⌊pos⌋
  let lo := s.getD i 0
  let hi := s.getD (i + 1) lo
  lo + frac * (hi - lo)

/-- The pitch block shared by both extractors: quartiles and IQR of the
merged candidate set, retention of in-band observations, then
(mean, median, variance, range) of the retained set, with the fixed
defaults (150, 150, std 30 i.e. var 900, 100) when nothing is retained. -/
def pitchStats (combined : List ℚ) : ℚ × ℚ × ℚ × ℚ :=
  let q1 := percentileQ combined 25
  let q3 := percentileQ combined 75
  let iqr := q3 - q1
  let filtered := combined.filter
    (fun p => decide (q1 - 1.5 * iqr ≤ p) && decide (p ≤ q3 + 1.5 * iqr))
  if 0 < filtered.length then
    (meanQ filtered, medianQ filtered, varQ filtered, maxQ filtered - minQ filtered)
  else (150, 150, 900, 100)

/-- Candidate merging in speech_classification.py:
`np.concatenate([pitch_values, f0_values, f0_values])` when both passes
produced candidates, with the `[150]` fallback when neither did. -/
def combinedPitchSC (pitch_values f0_values : List ℚ) : List ℚ :=
  if 0 < f0_values.length then
    (if 0 < pitch_values.length then pitch_values ++ (f0_values ++ f0_values)
     else f0_values)
  else if 0 < pitch_values.length then pitch_values else [150]

/-- Candidate merging in integrated.py:
`np.concatenate([pitch_values, f0_values])` — the yin pass contributes once. -/
def combinedPitchInt (pitch_values f0_values : List ℚ) : List ℚ :=
  if 0 < f0_values.length then
    (if 0 < pitch_values.length then pitch_values ++ f0_values else f0_values)
  else if 0 < pitch_values.length then pitch_values else [150]

/-- Pitch statistics of `extract_audio_features` in speech_classification.py,
as a function of the two passes' candidate lists. -/
def extractPitchSC (pitch_values f0_values : List ℚ) : ℚ × ℚ × ℚ × ℚ :=
  pitchStats (combinedPitchSC pitch_values f0_values)

/-- Pitch statistics of `extract_audio_features` in integrated.py. -/
def extractPitchInt (pitch_values f0_values : List ℚ) : ℚ × ℚ × ℚ × ℚ :=
  pitchStats (combinedPitchInt pitch_values f0_values)

/-- The formant block of both extractors, as a function of the collected
spectral peak frequencies: band means with fixed 500/1500 fallbacks. -/
def formantsOf (spectral_peaks : List ℚ) : ℚ × ℚ :=
  if 0 < spectral_peaks.length then
    let f1c := spectral_peaks.filter
      (fun fr => decide (200 < fr) && decide (fr < 1200))
    let f2c := spectral_peaks.filter
      (fun fr => decide (800 < fr) && decide (fr < 3500))
    ((if 0 < f1c.length then meanQ f1c else 500),
     (if 0 < f2c.length then meanQ f2c else 1500))
  else (500, 1500)

/-! ## C4: the all-silence buffer -/

/-- On the merged candidate set `[150]` (the fallback when neither pass
yields a candidate), the quartiles are both 150, the IQR filter retains the
single observation, and the statistics are mean 150, median 150, variance 0
(std 0) and range 0 — the `(150, 150, 30, 100)` defaults branch is not
reached. -/
theorem pitchStats_single : pitchStats [(150 : ℚ)] = (150, 150, 0, 0) := by
  have h1 : percentileQ [(150 : ℚ)] 25 = 150 := by
    norm_num [percentileQ, sortQ, insertSorted]
  have h3 : percentileQ [(150 : ℚ)] 75 = 150 := by
    norm_num [percentileQ, sortQ, insertSorted]
  simp only [pitchStats, h1, h3]
  norm_num [List.filter_cons, meanQ, medianQ, varQ, maxQ, minQ, sortQ,
    insertSorted]

/-- C4 counterexample: with no pitch candidates from either pass (the
all-silence case), both extractors return pitch_mean 150 and pitch_median
150 but pitch_std 0 and pitch_range 0 — not the claimed std 30 (variance
900) and range 100. -/
theorem silence_pitch_counterexample :
    extractPitchSC [] [] = (150, 150, 0, 0) ∧
    extractPitchSC [] [] ≠ (150, 150, 900, 100) := by
  have hc : combinedPitchSC [] [] = [150] := by norm_num [combinedPitchSC]
  have he : extractPitchSC [] [] = (150, 150, 0, 0) := by
    unfold extractPitchSC
    rw [hc, pitchStats_single]
  refine ⟨he, ?_⟩
  rw [he]
  norm_num [Prod.ext_iff]

/-- C4 (amended): on an all-silence buffer — no pitch candidates from either
pass and no spectral peaks — both extractors terminate with pitch_mean 150,
pitch_median 150, pitch_std 0 (variance 0), pitch_range 0, and formant
defaults F1 = 500, F2 = 1500. -/
theorem silence_pitch_amended :
    extractPitchSC [] [] = (150, 150, 0, 0) ∧
    extractPitchInt [] [] = (150, 150, 0, 0) ∧
    formantsOf [] = (500, 1500) := by
  have hcSC : combinedPitchSC [] [] = [150] := by norm_num [combinedPitchSC]
  have hcInt : combinedPitchInt [] [] = [150] := by norm_num [combinedPitchInt]
  refine ⟨?_, ?_, ?_⟩
  · unfold extractPitchSC
    rw [hcSC, pitchStats_single]
  · unfold extractPitchInt
    rw [hcInt, pitchStats_single]
  · norm_num [formantsOf]

/-! ## C10: the two extractor copies -/

/-- C10 counterexample: with one piptrack candidate (100 Hz) and one yin
candidate (200 Hz) — both passes non-empty — speech_classification.py merges
[100, 200, 200] (pitch_mean 500/3) while integrated.py merges [100, 200]
(pitch_mean 150): the two copies disagree. -/
theorem extractor_equiv_counterexample :
    (extractPitchSC [100] [200]).1 = 500 / 3 ∧
    (extractPitchInt [100] [200]).1 = 150 ∧
    (extractPitchSC [100] [200]).1 ≠ (extractPitchInt [100] [200]).1 := by
  have hcA : combinedPitchSC [100] [200] = [100, 200, 200] := by
    norm_num [combinedPitchSC]
  have hcB : combinedPitchInt [100] [200] = [100, 200] := by
    norm_num [combinedPitchInt]
  have hq1A : percentileQ [(100 : ℚ), 200, 200] 25 = 150 := by
    norm_num [percentileQ, sortQ, insertSorted]
  have hq3A : percentileQ [(100 : ℚ), 200, 200] 75 = 200 := by
    norm_num [percentileQ, sortQ, insertSorted]
  have hq1B : percentileQ [(100 : ℚ), 200] 25 = 125 := by
    norm_num [percentileQ, sortQ, insertSorted]
  have hq3B : percentileQ [(100 : ℚ), 200] 75 = 175 := by
    norm_num [percentileQ, sortQ, insertSorted]
  have hA : (extractPitchSC [100] [200]).1 = 500 / 3 := by
    unfold extractPitchSC
    rw [hcA]
    simp only [pitchStats, hq1A, hq3A]
    norm_num [List.filter_cons, meanQ]
  have hB : (extractPitchInt [100] [200]).1 = 150 := by
    unfold extractPitchInt
    rw [hcB]
    simp only [pitchStats, hq1B, hq3B]
    norm_num [List.filter_cons, meanQ]
  refine ⟨hA, hB, ?_⟩
  rw [hA, hB]
  norm_num

/-- C10 (amended): the two extractor copies return identical pitch statistics
whenever at least one of the two passes yields no candidates; the
counterexample shows they can differ when both yield candidates. -/
theorem extractor_equiv_amended (pitch_values f0_values : List ℚ)
    (h : pitch_values = [] ∨ f0_values = []) :
    extractPitchSC pitch_values f0_values =
      extractPitchInt pitch_values f0_values := by
  have hc : combinedPitchSC pitch_values f0_values =
      combinedPitchInt pitch_values f0_values := by
    rcases h with h | h <;> subst h <;> simp [combinedPitchSC, combinedPitchInt]
  unfold extractPitchSC extractPitchInt
  rw [hc]

/-- Witness for `extractor_equiv_amended`: an empty piptrack pass with one
yin candidate. -/
theorem extractor_equiv_amended_witness :
    extractPitchSC [] [180] = extractPitchInt [] [180] :=
  extractor_equiv_amended [] [180] (Or.inl rfl)
